import Mathlib

/-!
Verification of the Spacefish mobility evaluation core.

The definitions below are a shallow embedding of the two source files of the
repository: the evaluator in src/src/evaluate.cpp (which holds the bitboard
mobility routine, the MobilityMetrics record and the mobility_score scoring
engine) and the mobility utility header in src/unnamed/part_000 (MobilityInfo,
MobilityCache, fast_mobility, MobilityHistory).  Machine integers are modelled
as Int with explicit truncating division (Int.tdiv, the semantics of C++ `/`)
and explicit two's-complement wrapping where the source narrows to a fixed
width.  Bitboards are modelled as Boolean-valued functions on square indices,
with population counts taken over the 64 on-board squares.
-/

namespace Spacefish

/-- Piece colors, as in types.h (WHITE, BLACK). -/
inductive Color where
  | white
  | black
deriving DecidableEq, Repr

/-- The ~ operator on Color (opposite side). -/
def Color.opp : Color → Color
  | .white => .black
  | .black => .white

/-- std.clamp of C++: if v is below lo the result is lo, above hi the result
is hi, otherwise v itself. -/
def clampI (v lo hi : Int) : Int :=
  if v < lo then lo else if hi < v then hi else v

/-! ### Score constants

Modelled from the spec: the value constants come from types.h, which is not
under src/.  The spec requires a fixed integer range with mate constants
outside the tablebase bounds, the tablebase bounds outside the ordinary
heuristic range, draw exactly zero, and a negated mirror on the losing side;
the concrete numbers below are the upstream Stockfish convention the two
source files are written against (VALUE_MATE 32000, MAX_PLY 246). -/

/-- Modelled from the spec: mate value, top of the score range. -/
def VALUE_MATE : Int := 32000

/-- Modelled from the spec: maximal search depth in plies. -/
def MAX_PLY : Int := 246

/-- Modelled from the spec: least value meaning mate within MAX_PLY plies. -/
def VALUE_MATE_IN_MAX_PLY : Int := VALUE_MATE - MAX_PLY

/-- Modelled from the spec: negated mirror of VALUE_MATE_IN_MAX_PLY. -/
def VALUE_MATED_IN_MAX_PLY : Int := -VALUE_MATE_IN_MAX_PLY

/-- Modelled from the spec: tablebase value, just below the mate range. -/
def VALUE_TB : Int := VALUE_MATE_IN_MAX_PLY - 1

/-- Modelled from the spec: least tablebase win value. -/
def VALUE_TB_WIN_IN_MAX_PLY : Int := VALUE_TB - MAX_PLY

/-- Modelled from the spec: greatest tablebase loss value. -/
def VALUE_TB_LOSS_IN_MAX_PLY : Int := -VALUE_TB_WIN_IN_MAX_PLY

/-- Modelled from the spec: the draw value, exactly zero. -/
def VALUE_DRAW : Int := 0

/-! ### Scoring engine (src/src/evaluate.cpp, mobility_score) -/

/-- MobilityMetrics of src/src/evaluate.cpp: the transient per-evaluation
record of both sides' mobility counts and check flags. -/
structure MobilityMetrics where
  myMobility : Int
  oppMobility : Int
  myInCheck : Bool
  oppInCheck : Bool
deriving DecidableEq, Repr

/-- MobilityWeight constant of src/src/evaluate.cpp. -/
def MobilityWeight : Int := 32

/-- MobilityNormalizer constant of src/src/evaluate.cpp. -/
def MobilityNormalizer : Int := 64

/-- MobilityMateScore constant of src/src/evaluate.cpp. -/
def MobilityMateScore : Int := VALUE_MATE_IN_MAX_PLY - 1

/-- MobilityMatedScore constant of src/src/evaluate.cpp. -/
def MobilityMatedScore : Int := VALUE_MATED_IN_MAX_PLY + 1

/-- mobility_score of src/src/evaluate.cpp: zero own mobility gives the mated
constant when in check and the draw value otherwise; zero opponent mobility
gives the mate constant when the opponent is in check and the draw value
otherwise; otherwise the scaled mobility difference, computed with truncating
integer division as in C++ and clamped strictly inside the tablebase bounds. -/
def mobility_score (m : MobilityMetrics) : Int :=
  if m.myMobility = 0 then
    (if m.myInCheck then MobilityMatedScore else VALUE_DRAW)
  else if m.oppMobility = 0 then
    (if m.oppInCheck then MobilityMateScore else VALUE_DRAW)
  else
    let diff := m.myMobility - m.oppMobility
    let total := m.myMobility + m.oppMobility + MobilityNormalizer
    let scaled := diff * MobilityWeight * MobilityNormalizer
    let score := Int.tdiv scaled total
    clampI score (VALUE_TB_LOSS_IN_MAX_PLY + 1) (VALUE_TB_WIN_IN_MAX_PLY - 1)

/-- Swapping the two sides of a MobilityMetrics record: mobility counts
exchanged and check flags exchanged. -/
def MobilityMetrics.swap (m : MobilityMetrics) : MobilityMetrics :=
  ⟨m.oppMobility, m.myMobility, m.oppInCheck, m.myInCheck⟩

/-! ### Mobility cache (src/unnamed/part_000) -/

/-- MobilityInfo of src/unnamed/part_000: cached mobility payload. -/
structure MobilityInfo where
  ourMobility : Int
  theirMobility : Int
  differential : Int
deriving DecidableEq, Repr

/-- The two-argument MobilityInfo constructor of src/unnamed/part_000, which
precomputes the differential as our minus their. -/
def MobilityInfo.ofCounts (our their : Int) : MobilityInfo :=
  ⟨our, their, our - their⟩

/-- CacheSize of MobilityCache: 2 to the 16, 65536 entries. -/
def CacheSize : Nat := 65536

/-- One slot of the mobility cache: key, payload and generation tag. -/
structure CacheEntry where
  key : Nat
  info : MobilityInfo
  generation : Nat
deriving DecidableEq, Repr

/-- The all-zero slot produced by memset in the constructor and on a full
physical clear. -/
def CacheEntry.zeroed : CacheEntry :=
  ⟨0, ⟨0, 0, 0⟩, 0⟩

/-- The MobilityCache state: the table of CacheSize slots (indexed by the
slot number, key mod CacheSize) and the current generation counter. -/
structure MobilityCache where
  table : Nat → CacheEntry
  currentGeneration : Nat

/-- The slot a key maps to: key AND (CacheSize - 1), which for the power of
two table size equals key mod CacheSize. -/
def slotOf (key : Nat) : Nat := key % CacheSize

/-- The MobilityCache constructor: memset of the table to zero bytes, with
currentGeneration starting at 1. -/
def MobilityCache.init : MobilityCache :=
  ⟨fun _ => CacheEntry.zeroed, 1⟩

/-- MobilityCache.probe: the cached payload when the slot key matches and the
slot generation equals the current generation, otherwise absent. -/
def MobilityCache.probe (c : MobilityCache) (key : Nat) : Option MobilityInfo :=
  let e := c.table (slotOf key)
  if e.key = key ∧ e.generation = c.currentGeneration then some e.info else none

/-- MobilityCache.store: unconditionally overwrite the selected slot with the
key, the payload and the current generation. -/
def MobilityCache.store (c : MobilityCache) (key : Nat) (info : MobilityInfo) :
    MobilityCache :=
  { c with table := Function.update c.table (slotOf key) ⟨key, info, c.currentGeneration⟩ }

/-- MobilityCache.clear: advance the 8-bit generation counter; when the
increment wraps to zero, physically zero every slot and restart at 1. -/
def MobilityCache.clear (c : MobilityCache) : MobilityCache :=
  let g := (c.currentGeneration + 1) % 256
  if g = 0 then ⟨fun _ => CacheEntry.zeroed, 1⟩
  else { c with currentGeneration := g }

/-- Cache states reachable from the constructor through the public
operations store and clear (probe does not change the state). -/
inductive CacheReachable : MobilityCache → Prop where
  | init : CacheReachable MobilityCache.init
  | store {c : MobilityCache} (key : Nat) (info : MobilityInfo) :
      CacheReachable c → CacheReachable (c.store key info)
  | clear {c : MobilityCache} :
      CacheReachable c → CacheReachable c.clear

/-- In every reachable cache state the generation counter lies in 1..255. -/
theorem cacheReachable_generation {c : MobilityCache} (h : CacheReachable c) :
    1 ≤ c.currentGeneration ∧ c.currentGeneration ≤ 255 := by
  induction h with
  | init => exact ⟨le_refl 1, by norm_num [MobilityCache.init]⟩
  | store key info _ ih => exact ih
  | clear _ ih =>
    rename_i c _
    unfold MobilityCache.clear
    by_cases hg : (c.currentGeneration + 1) % 256 = 0
    · rw [if_pos hg]
      exact ⟨le_refl 1, by norm_num⟩
    · rw [if_neg hg]
      dsimp only
      have := Nat.mod_lt (c.currentGeneration + 1) (show 0 < 256 by norm_num)
      omega

/-! ### Mobility history (src/unnamed/part_000, MobilityHistory) -/

/-- HistoryMax constant of MobilityHistory. -/
def HistoryMax : Int := 16384

/-- A move as consumed by the history table: origin and destination square. -/
structure Move where
  fromSq : Fin 64
  toSq : Fin 64
deriving DecidableEq

/-- Two's-complement narrowing to int16_t. -/
def wrap16 (x : Int) : Int := (x + 32768) % 65536 - 32768

/-- The MobilityHistory state: the [color][from][to] table of int16 values. -/
structure MobilityHistory where
  table : Color → Fin 64 → Fin 64 → Int

/-- The zero-initialised history table. -/
def MobilityHistory.init : MobilityHistory := ⟨fun _ _ _ => 0⟩

/-- MobilityHistory.clear: memset of the table back to zero. -/
def MobilityHistory.clear (_ : MobilityHistory) : MobilityHistory :=
  ⟨fun _ _ _ => 0⟩

/-- MobilityHistory.get: pure lookup. -/
def MobilityHistory.get (h : MobilityHistory) (c : Color) (m : Move) : Int :=
  h.table c m.fromSq m.toSq

/-- MobilityHistory.update: the decayed bonus is added to the entry with
int16 wrap-around on assignment (the compound assignment narrows the int
expression back to int16_t), then the entry is clamped into the
[-HistoryMax, HistoryMax] band. -/
def MobilityHistory.update (h : MobilityHistory) (c : Color) (m : Move)
    (bonus : Int) : MobilityHistory :=
  let e := h.table c m.fromSq m.toSq
  let e1 := wrap16 (e + (bonus - Int.tdiv (e * (bonus.natAbs : Int)) HistoryMax))
  let e2 := clampI e1 (-HistoryMax) HistoryMax
  ⟨Function.update h.table c
    (Function.update (h.table c) m.fromSq
      (Function.update (h.table c m.fromSq) m.toSq e2))⟩

/-- History states reachable from construction through the public operations
clear and update. -/
inductive HistoryReachable : MobilityHistory → Prop where
  | init : HistoryReachable MobilityHistory.init
  | clear {h : MobilityHistory} : HistoryReachable h → HistoryReachable h.clear
  | update {h : MobilityHistory} (c : Color) (m : Move) (bonus : Int) :
      HistoryReachable h → HistoryReachable (h.update c m bonus)

/-! ### Bitboards

Modelled from the spec: the bit-set primitives (bitboard.h, not under src/)
represent a board as a 64-bit word, one bit per square, square index equal to
rank times 8 plus file (A1 is 0, H1 is 7, A2 is 8).  A board is embedded as a
Boolean-valued function on natural square indices; every primitive keeps its
support inside 0..63, exactly as a uint64 does, and the population count runs
over the 64 on-board squares.  shift moves every bit one step in a compass
direction, dropping bits that would leave the board (the east and west
components mask off the wrapping file before shifting). -/

/-- A bitboard: the set of squares whose bit is set. -/
def Board := Nat → Bool

/-- popcount: the number of set bits among the 64 board squares. -/
def popcount (b : Board) : Nat :=
  ((Finset.range 64).filter (fun s => b s = true)).card

/-- Bitwise AND of two boards. -/
def Board.inter (a b : Board) : Board := fun s => a s && b s

/-- Bitwise OR of two boards. -/
def Board.union (a b : Board) : Board := fun s => a s || b s

/-- Bitwise complement of a board (within the 64 board squares; squares off
the board never count). -/
def Board.compl (a : Board) : Board := fun s => !a s

/-- The empty board, all bits zero. -/
def emptyBB : Board := fun _ => false

/-- The board holding exactly the squares of a list. -/
def bbOf (l : List Nat) : Board := fun s => l.contains s

/-- shift NORTH: the bit of square s comes from square s - 8. -/
def shiftNorth (b : Board) : Board :=
  fun s => decide (8 ≤ s ∧ s < 64) && b (s - 8)

/-- shift SOUTH: the bit of square s comes from square s + 8. -/
def shiftSouth (b : Board) : Board :=
  fun s => decide (s + 8 < 64) && b (s + 8)

/-- shift NORTH_EAST: the bit of square s comes from square s - 9, and a
source on file H never wraps (equivalently the destination is not on
file A). -/
def shiftNorthEast (b : Board) : Board :=
  fun s => decide (9 ≤ s ∧ s < 64 ∧ s % 8 ≠ 0) && b (s - 9)

/-- shift NORTH_WEST: the bit of square s comes from square s - 7, and a
source on file A never wraps (equivalently the destination is not on
file H). -/
def shiftNorthWest (b : Board) : Board :=
  fun s => decide (7 ≤ s ∧ s < 64 ∧ s % 8 ≠ 7) && b (s - 7)

/-- shift SOUTH_EAST: the bit of square s comes from square s + 7, and a
source on file H never wraps (equivalently the destination is not on
file A). -/
def shiftSouthEast (b : Board) : Board :=
  fun s => decide (s + 7 < 64 ∧ s % 8 ≠ 0) && b (s + 7)

/-- shift SOUTH_WEST: the bit of square s comes from square s + 9, and a
source on file A never wraps (equivalently the destination is not on
file H). -/
def shiftSouthWest (b : Board) : Board :=
  fun s => decide (s + 9 < 64 ∧ s % 8 ≠ 7) && b (s + 9)

/-- Rank2BB: squares 8..15. -/
def rank2BB : Board := fun s => decide (8 ≤ s ∧ s < 16)

/-- Rank3BB: squares 16..23. -/
def rank3BB : Board := fun s => decide (16 ≤ s ∧ s < 24)

/-- Rank4BB: squares 24..31. -/
def rank4BB : Board := fun s => decide (24 ≤ s ∧ s < 32)

/-- Rank5BB: squares 32..39. -/
def rank5BB : Board := fun s => decide (32 ≤ s ∧ s < 40)

/-- Rank6BB: squares 40..47. -/
def rank6BB : Board := fun s => decide (40 ≤ s ∧ s < 48)

/-- Rank7BB: squares 48..55. -/
def rank7BB : Board := fun s => decide (48 ≤ s ∧ s < 56)

/-- Distance between two coordinates. -/
def coordDist (a b : Nat) : Nat := max a b - min a b

/-- Modelled from the spec: attacks_bb KNIGHT of the bit-set primitives, the
fixed knight pattern (rank and file distances 1 and 2 in either order). -/
def knightAttacks (s : Nat) : Board :=
  fun t => decide (s < 64 ∧ t < 64 ∧
    ((coordDist (s / 8) (t / 8) = 1 ∧ coordDist (s % 8) (t % 8) = 2) ∨
     (coordDist (s / 8) (t / 8) = 2 ∧ coordDist (s % 8) (t % 8) = 1)))

/-- Modelled from the spec: attacks_bb KING, the fixed king pattern
(Chebyshev distance exactly 1). -/
def kingAttacks (s : Nat) : Board :=
  fun t => decide (s < 64 ∧ t < 64 ∧
    max (coordDist (s / 8) (t / 8)) (coordDist (s % 8) (t % 8)) = 1)

/-- Modelled from the spec: one ray of a sliding attack, walking from rank r
and file f in direction (dr, df) and stopping at (and including) the first
occupied square.  The fuel bounds the walk by the board diameter. -/
def slideRay (occ : Board) (r f dr df : Int) : Nat → List Nat
  | 0 => []
  | fuel + 1 =>
    let r2 := r + dr
    let f2 := f + df
    if 0 ≤ r2 ∧ r2 < 8 ∧ 0 ≤ f2 ∧ f2 < 8 then
      let t := (r2 * 8 + f2).toNat
      if occ t then [t] else t :: slideRay occ r2 f2 dr df fuel
    else []

/-- The board of squares on one blocked ray from square s. -/
def rayBB (occ : Board) (s : Nat) (dr df : Int) : Board :=
  fun t => (slideRay occ ((s / 8 : Nat) : Int) ((s % 8 : Nat) : Int) dr df 7).contains t

/-- Modelled from the spec: attacks_bb BISHOP with occupancy, the union of
the four diagonal rays. -/
def bishopAttacks (occ : Board) (s : Nat) : Board :=
  Board.union (Board.union (rayBB occ s 1 1) (rayBB occ s 1 (-1)))
    (Board.union (rayBB occ s (-1) 1) (rayBB occ s (-1) (-1)))

/-- Modelled from the spec: attacks_bb ROOK with occupancy, the union of the
four orthogonal rays. -/
def rookAttacks (occ : Board) (s : Nat) : Board :=
  Board.union (Board.union (rayBB occ s 1 0) (rayBB occ s (-1) 0))
    (Board.union (rayBB occ s 0 1) (rayBB occ s 0 (-1)))

/-- Modelled from the spec: attacks_bb QUEEN with occupancy, bishop and rook
attacks combined. -/
def queenAttacks (occ : Board) (s : Nat) : Board :=
  Board.union (bishopAttacks occ s) (rookAttacks occ s)

/-! ### Positions -/

/-- Piece types, as in types.h. -/
inductive PieceType where
  | pawn
  | knight
  | bishop
  | rook
  | queen
  | king
deriving DecidableEq, Repr

/-- The read-only position oracle, reduced to the queries the two mobility
routines consume: the per-color per-type piece bitboards. -/
structure Position where
  byColorType : Color → PieceType → Board

/-- pos.pieces(c): all pieces of one color. -/
def Position.colorPieces (p : Position) (c : Color) : Board :=
  fun s => p.byColorType c .pawn s || p.byColorType c .knight s ||
    p.byColorType c .bishop s || p.byColorType c .rook s ||
    p.byColorType c .queen s || p.byColorType c .king s

/-- pos.pieces(): the full occupancy. -/
def Position.occupied (p : Position) : Board :=
  Board.union (p.colorPieces .white) (p.colorPieces .black)

/-- pos.square KING (c): the least set bit of the king bitboard (0 when the
board has no king, which well-formed positions exclude). -/
def Position.kingSquare (p : Position) (c : Color) : Nat :=
  (((List.range 64).find? (fun s => p.byColorType c .king s)).getD 0)

/-- The squares of a board in ascending order: the order in which the
pop_lsb loops of the two mobility routines visit the pieces. -/
def squaresOf (b : Board) : List Nat :=
  (List.range 64).filter (fun s => b s)

/-- The effect of a pop_lsb accumulation loop: the sum of f over the set
squares of the board. -/
def sumOver (b : Board) (f : Nat → Nat) : Nat :=
  ((squaresOf b).map f).sum

/-! ### The two mobility routines -/

/-- The color-directed single pawn push of the mobility routine in
src/src/evaluate.cpp: shift NORTH for white, shift SOUTH for black. -/
def pushShift (c : Color) (b : Board) : Board :=
  match c with
  | .white => shiftNorth b
  | .black => shiftSouth b

/-- The double-push staging rank of src/src/evaluate.cpp: Rank3BB for white,
Rank6BB for black. -/
def dblRank (c : Color) : Board :=
  match c with
  | .white => rank3BB
  | .black => rank6BB

/-- The pawn attack board of src/src/evaluate.cpp: both forward diagonal
shifts of the pawn set, directed by color. -/
def pawnAttacksBB (c : Color) (b : Board) : Board :=
  match c with
  | .white => Board.union (shiftNorthEast b) (shiftNorthWest b)
  | .black => Board.union (shiftSouthEast b) (shiftSouthWest b)

/-- The single-push board of src/src/evaluate.cpp (line 62): forward shifted
pawns landing on empty squares. -/
def singleBB (p : Position) (c : Color) : Board :=
  Board.inter (pushShift c (p.byColorType c .pawn)) (Board.compl p.occupied)

/-- The double-push board of src/src/evaluate.cpp (lines 65..66): the single
pushes on the staging rank, pushed once more onto empty squares. -/
def doubleBB (p : Position) (c : Color) : Board :=
  Board.inter (pushShift c (Board.inter (singleBB p c) (dblRank c)))
    (Board.compl p.occupied)

/-- The pawn attack count board of src/src/evaluate.cpp (lines 68..70): the
diagonally attacked squares not occupied by the moving side. -/
def mobilityPawnAttBB (p : Position) (c : Color) : Board :=
  Board.inter (pawnAttacksBB c (p.byColorType c .pawn))
    (Board.compl (p.colorPieces c))

/-- The pawn contribution of the mobility routine of src/src/evaluate.cpp:
single pushes, double pushes and diagonal reach onto non-friendly squares. -/
def mobilityPawnTerm (p : Position) (c : Color) : Nat :=
  popcount (singleBB p c) + popcount (doubleBB p c) +
    popcount (mobilityPawnAttBB p c)

/-- The knight, slider and king contribution shared verbatim by both mobility
routines: for each piece of the type, the attacked squares (with occupancy
for sliders) minus the squares of the moving side. -/
def nonPawnMobility (p : Position) (c : Color) : Nat :=
  sumOver (p.byColorType c .knight)
      (fun s => popcount (Board.inter (knightAttacks s) (Board.compl (p.colorPieces c)))) +
  sumOver (p.byColorType c .bishop)
      (fun s => popcount (Board.inter (bishopAttacks p.occupied s) (Board.compl (p.colorPieces c)))) +
  sumOver (p.byColorType c .rook)
      (fun s => popcount (Board.inter (rookAttacks p.occupied s) (Board.compl (p.colorPieces c)))) +
  sumOver (p.byColorType c .queen)
      (fun s => popcount (Board.inter (queenAttacks p.occupied s) (Board.compl (p.colorPieces c)))) +
  popcount (Board.inter (kingAttacks (p.kingSquare c)) (Board.compl (p.colorPieces c)))

/-- The mobility routine of src/src/evaluate.cpp (lines 55..92): pawn pushes,
pawn diagonal reach onto non-friendly squares, then the per-piece attack
loops. -/
def mobility (p : Position) (c : Color) : Nat :=
  mobilityPawnTerm p c + nonPawnMobility p c

/-- The double-push board of fast_mobility in src/unnamed/part_000 (lines
118..119 and 123..124): the starting-rank pawns shifted forward twice, landing
on an empty square of the double-push rank, with no condition on the square
passed over. -/
def fastDoubleBB (p : Position) (c : Color) : Board :=
  match c with
  | .white =>
      Board.inter
        (Board.inter (shiftNorth (shiftNorth (Board.inter (p.byColorType .white .pawn) rank2BB)))
          (Board.compl p.occupied)) rank4BB
  | .black =>
      Board.inter
        (Board.inter (shiftSouth (shiftSouth (Board.inter (p.byColorType .black .pawn) rank7BB)))
          (Board.compl p.occupied)) rank5BB

/-- The pawn capture board of fast_mobility in src/unnamed/part_000 (lines
120 and 125): the diagonally attacked squares occupied by the enemy. -/
def fastPawnCaptureBB (p : Position) (c : Color) : Board :=
  match c with
  | .white =>
      Board.inter (Board.union (shiftNorthEast (p.byColorType .white .pawn))
        (shiftNorthWest (p.byColorType .white .pawn))) (p.colorPieces .black)
  | .black =>
      Board.inter (Board.union (shiftSouthEast (p.byColorType .black .pawn))
        (shiftSouthWest (p.byColorType .black .pawn))) (p.colorPieces .white)

/-- The pawn contribution of fast_mobility in src/unnamed/part_000 (lines
114..126): single pushes onto empty squares, starting-rank double pushes onto
empty destination squares, and diagonal captures onto enemy squares. -/
def fastPawnTerm (p : Position) (c : Color) : Nat :=
  match c with
  | .white =>
      popcount (Board.inter (shiftNorth (p.byColorType .white .pawn)) (Board.compl p.occupied)) +
      popcount (fastDoubleBB p .white) + popcount (fastPawnCaptureBB p .white)
  | .black =>
      popcount (Board.inter (shiftSouth (p.byColorType .black .pawn)) (Board.compl p.occupied)) +
      popcount (fastDoubleBB p .black) + popcount (fastPawnCaptureBB p .black)

/-- fast_mobility of src/unnamed/part_000 (lines 108..161): the pawn terms,
then the same per-piece attack loops as the mobility routine of
src/src/evaluate.cpp. -/
def fast_mobility (p : Position) (c : Color) : Nat :=
  fastPawnTerm p c + nonPawnMobility p c

/-! ### Specification-side pawn boards

The next two definitions follow the words of the spec, not the source, and
exist to be compared with the boards the two routines compute. -/

/-- Modelled from the spec: the double pushes the spec admits, a destination
square two steps ahead of a starting-rank pawn such that both the passed-over
square and the destination square are empty. -/
def specDoubleBB (p : Position) (c : Color) : Board :=
  match c with
  | .white => fun s =>
      decide (24 ≤ s ∧ s < 32) && p.byColorType .white .pawn (s - 16) &&
        !p.occupied (s - 8) && !p.occupied s
  | .black => fun s =>
      decide (32 ≤ s ∧ s < 40) && p.byColorType .black .pawn (s + 16) &&
        !p.occupied (s + 8) && !p.occupied s

/-- Modelled from the claim wording for the divergent implementation: double
pushes admitted whenever the destination two steps ahead of a starting-rank
pawn is empty, regardless of the passed-over square. -/
def specDoubleDestOnlyBB (p : Position) (c : Color) : Board :=
  match c with
  | .white => fun s =>
      decide (24 ≤ s ∧ s < 32) && p.byColorType .white .pawn (s - 16) &&
        !p.occupied s
  | .black => fun s =>
      decide (32 ≤ s ∧ s < 40) && p.byColorType .black .pawn (s + 16) &&
        !p.occupied s

/-! ### Concrete positions used as test inputs -/

/-- A position with the white king on e1 (4), a white pawn on b2 (9), the
black king on e8 (60) and a black knight on b3 (17): the white pawn has its
single-push square occupied but its double-push square free, and both its
diagonal reach squares a3 and c3 empty. -/
def posA : Position :=
  ⟨fun c pt =>
    match c, pt with
    | .white, .pawn => bbOf [9]
    | .white, .king => bbOf [4]
    | .black, .knight => bbOf [17]
    | .black, .king => bbOf [60]
    | _, _ => emptyBB⟩

/-- A pawnless position: only the two kings, on e1 and e8. -/
def posK : Position :=
  ⟨fun c pt =>
    match c, pt with
    | .white, .king => bbOf [4]
    | .black, .king => bbOf [60]
    | _, _ => emptyBB⟩

/-! ### Helper lemmas -/

/-- The clamp always lands inside the band when the band is nonempty. -/
theorem clampI_mem (v lo hi : Int) (h : lo ≤ hi) :
    lo ≤ clampI v lo hi ∧ clampI v lo hi ≤ hi := by
  unfold clampI
  split_ifs <;> omega

/-- Two boards agreeing on the 64 on-board squares have the same population
count. -/
theorem popcount_congr {a b : Board} (h : ∀ s, s < 64 → a s = b s) :
    popcount a = popcount b := by
  unfold popcount
  congr 1
  apply Finset.filter_congr
  intro s hs
  rw [h s (Finset.mem_range.mp hs)]

/-- A board with no set on-board bit has population count zero. -/
theorem popcount_zero {b : Board} (h : ∀ s, s < 64 → b s = false) :
    popcount b = 0 := by
  unfold popcount
  rw [Finset.card_eq_zero, Finset.filter_eq_empty_iff]
  intro s hs
  rw [h s (Finset.mem_range.mp hs)]
  simp

/-- Counting the bits of a board restricted to the complement of f splits
into the bits on e and the bits outside both, when f and e never overlap. -/
theorem popcount_split (a f e : Board)
    (hfe : ∀ s, s < 64 → ¬(f s = true ∧ e s = true)) :
    popcount (Board.inter a (Board.compl f)) =
      popcount (Board.inter a e) +
        popcount (Board.inter a (Board.compl (Board.union f e))) := by
  have hd : Disjoint
      ((Finset.range 64).filter (fun s => Board.inter a e s = true))
      ((Finset.range 64).filter
        (fun s => Board.inter a (Board.compl (Board.union f e)) s = true)) := by
    rw [Finset.disjoint_left]
    intro s hs1 hs2
    simp only [Finset.mem_filter, Board.inter, Board.compl, Board.union,
      Bool.and_eq_true, Bool.not_eq_true'] at hs1 hs2
    rcases hs2.2.2 with h2
    rcases hs1.2.2 with h1
    rw [h1] at h2
    simp at h2
  unfold popcount
  rw [← Finset.card_union_of_disjoint hd]
  congr 1
  rw [← Finset.filter_or]
  apply Finset.filter_congr
  intro s hs
  have hne := hfe s (Finset.mem_range.mp hs)
  unfold Board.inter Board.compl Board.union
  cases ha : a s <;> cases hf : f s <;> cases he : e s <;> simp_all

/-- The clamp into a symmetric nonempty band commutes with negation. -/
theorem clampI_neg (v b : Int) (hb : 0 ≤ b) :
    clampI (-v) (-b) b = -clampI v (-b) b := by
  unfold clampI
  split_ifs <;> omega

/-! ### Claim theorems -/

/-- C1: for every MobilityMetrics value with myMobility equal to zero, the
scoring engine returns the mated constant when myInCheck is true and the draw
value zero when myInCheck is false, whatever the opponent fields hold. -/
theorem c1_terminal_cases (m : MobilityMetrics) (h : m.myMobility = 0) :
    (m.myInCheck = true → mobility_score m = MobilityMatedScore) ∧
    (m.myInCheck = false → mobility_score m = VALUE_DRAW) := by
  constructor <;> intro hc <;> simp [mobility_score, h, hc]

/-- Witness for C1 at the concrete metrics (0, 5, true, false). -/
theorem c1_witness :
    (MobilityMetrics.mk 0 5 true false).myMobility = 0 ∧
      mobility_score ⟨0, 5, true, false⟩ = MobilityMatedScore :=
  ⟨rfl, (c1_terminal_cases ⟨0, 5, true, false⟩ rfl).1 rfl⟩

/-- C2: for every MobilityMetrics value with both mobilities positive, the
scoring engine value lies strictly inside the tablebase-bound interval and
never equals the mate or mated constants. -/
theorem c2_clamp_law (m : MobilityMetrics) (h1 : 0 < m.myMobility)
    (h2 : 0 < m.oppMobility) :
    VALUE_TB_LOSS_IN_MAX_PLY < mobility_score m ∧
    mobility_score m < VALUE_TB_WIN_IN_MAX_PLY ∧
    mobility_score m ≠ MobilityMateScore ∧
    mobility_score m ≠ MobilityMatedScore := by
  have hm : ¬(m.myMobility = 0) := by omega
  have ho : ¬(m.oppMobility = 0) := by omega
  have hsc : mobility_score m =
      clampI (Int.tdiv ((m.myMobility - m.oppMobility) * MobilityWeight * MobilityNormalizer)
          (m.myMobility + m.oppMobility + MobilityNormalizer))
        (VALUE_TB_LOSS_IN_MAX_PLY + 1) (VALUE_TB_WIN_IN_MAX_PLY - 1) := by
    simp only [mobility_score, hm, ho, if_false]
  have hb := clampI_mem
    (Int.tdiv ((m.myMobility - m.oppMobility) * MobilityWeight * MobilityNormalizer)
      (m.myMobility + m.oppMobility + MobilityNormalizer))
    (VALUE_TB_LOSS_IN_MAX_PLY + 1) (VALUE_TB_WIN_IN_MAX_PLY - 1)
    (by norm_num [VALUE_TB_LOSS_IN_MAX_PLY, VALUE_TB_WIN_IN_MAX_PLY, VALUE_TB,
      VALUE_MATE_IN_MAX_PLY, VALUE_MATE, MAX_PLY])
  rw [hsc]
  simp only [VALUE_TB_LOSS_IN_MAX_PLY, VALUE_TB_WIN_IN_MAX_PLY, VALUE_TB,
    VALUE_MATE_IN_MAX_PLY, VALUE_MATED_IN_MAX_PLY, VALUE_MATE, MAX_PLY,
    MobilityMateScore, MobilityMatedScore] at hb ⊢
  norm_num at hb ⊢
  omega

/-- Witness for C2 at the concrete metrics (30, 20, false, false). -/
theorem c2_witness :
    (0 : Int) < 30 ∧ (0 : Int) < 20 ∧
      VALUE_TB_LOSS_IN_MAX_PLY < mobility_score ⟨30, 20, false, false⟩ ∧
      mobility_score ⟨30, 20, false, false⟩ < VALUE_TB_WIN_IN_MAX_PLY :=
  ⟨by norm_num, by norm_num,
    (c2_clamp_law ⟨30, 20, false, false⟩ (by norm_num) (by norm_num)).1,
    (c2_clamp_law ⟨30, 20, false, false⟩ (by norm_num) (by norm_num)).2.1⟩

/-- C3 counterexample: at the metrics (0, 0, true, false) the score of the
swapped metrics is the draw value zero, while the negated score of the
original metrics is the mate constant, so the symmetry claim fails there. -/
theorem c3_symmetry_counterexample :
    mobility_score (MobilityMetrics.swap ⟨0, 0, true, false⟩) ≠
      -mobility_score ⟨0, 0, true, false⟩ := by
  decide

/-- C3 amended: for every MobilityMetrics value in which at least one side
has nonzero mobility, swapping the two sides negates the score. -/
theorem c3_symmetry_amended (m : MobilityMetrics)
    (h : m.myMobility ≠ 0 ∨ m.oppMobility ≠ 0) :
    mobility_score m.swap = -mobility_score m := by
  unfold mobility_score MobilityMetrics.swap
  dsimp only
  by_cases h1 : m.myMobility = 0
  · have h2 : ¬(m.oppMobility = 0) := by tauto
    rw [if_neg h2, if_pos h1, if_pos h1]
    cases hc : m.myInCheck
    · show VALUE_DRAW = -VALUE_DRAW
      norm_num [VALUE_DRAW]
    · show MobilityMateScore = -MobilityMatedScore
      norm_num [MobilityMateScore, MobilityMatedScore, VALUE_MATED_IN_MAX_PLY,
        VALUE_MATE_IN_MAX_PLY, VALUE_MATE, MAX_PLY]
  · by_cases h2 : m.oppMobility = 0
    · rw [if_pos h2, if_neg h1, if_pos h2]
      cases hc : m.oppInCheck
      · show VALUE_DRAW = -VALUE_DRAW
        norm_num [VALUE_DRAW]
      · show MobilityMatedScore = -MobilityMateScore
        norm_num [MobilityMateScore, MobilityMatedScore, VALUE_MATED_IN_MAX_PLY,
          VALUE_MATE_IN_MAX_PLY, VALUE_MATE, MAX_PLY]
    · rw [if_neg h2, if_neg h1, if_neg h1, if_neg h2]
      have e1 : m.oppMobility + m.myMobility + MobilityNormalizer =
          m.myMobility + m.oppMobility + MobilityNormalizer := by ring
      have e2 : (m.oppMobility - m.myMobility) * MobilityWeight * MobilityNormalizer =
          -((m.myMobility - m.oppMobility) * MobilityWeight * MobilityNormalizer) := by ring
      rw [e1, e2, Int.neg_tdiv]
      have e3 : VALUE_TB_LOSS_IN_MAX_PLY + 1 = -(VALUE_TB_WIN_IN_MAX_PLY - 1) := by
        norm_num [VALUE_TB_LOSS_IN_MAX_PLY, VALUE_TB_WIN_IN_MAX_PLY, VALUE_TB,
          VALUE_MATE_IN_MAX_PLY, VALUE_MATE, MAX_PLY]
      rw [e3, clampI_neg _ _ (by norm_num [VALUE_TB_WIN_IN_MAX_PLY, VALUE_TB,
        VALUE_MATE_IN_MAX_PLY, VALUE_MATE, MAX_PLY])]

/-- Witness for the amended C3 at the concrete metrics (3, 5, false, true). -/
theorem c3_witness :
    ((3 : Int) ≠ 0 ∨ (5 : Int) ≠ 0) ∧
      mobility_score (MobilityMetrics.swap ⟨3, 5, false, true⟩) =
        -mobility_score ⟨3, 5, false, true⟩ :=
  ⟨Or.inl (by norm_num),
    c3_symmetry_amended ⟨3, 5, false, true⟩ (Or.inl (by norm_num))⟩

/-- A concrete MobilityInfo payload used by the cache witnesses. -/
def infoA : MobilityInfo := MobilityInfo.ofCounts 21 13

/-- C4: a probe immediately after a store of the same hash, with no
generation advance between, returns exactly the stored payload; the
two-argument MobilityInfo constructor precomputes the differential as the
difference of the two counts; in a reachable state a probe of a slot still in
its physically cleared form returns absent; and after a single clear the
stored entry probes absent. -/
theorem c4_cache_transparency :
    (∀ (c : MobilityCache) (k : Nat) (i : MobilityInfo),
      (c.store k i).probe k = some i) ∧
    (∀ our their : Int, (MobilityInfo.ofCounts our their).differential = our - their) ∧
    (∀ (c : MobilityCache) (k : Nat), CacheReachable c →
      c.table (slotOf k) = CacheEntry.zeroed → c.probe k = none) ∧
    (∀ (c : MobilityCache) (k : Nat) (i : MobilityInfo), CacheReachable c →
      ((c.store k i).clear).probe k = none) := by
  refine ⟨?_, ?_, ?_, ?_⟩
  · intro c k i
    simp [MobilityCache.probe, MobilityCache.store, Function.update_same]
  · intro our their
    rfl
  · intro c k hr he
    have hg := cacheReachable_generation hr
    unfold MobilityCache.probe
    rw [he]
    rw [if_neg]
    rintro ⟨-, h2⟩
    simp only [CacheEntry.zeroed] at h2
    omega
  · intro c k i hr
    obtain ⟨hg1, hg2⟩ := cacheReachable_generation hr
    unfold MobilityCache.clear MobilityCache.store
    dsimp only
    by_cases hw : (c.currentGeneration + 1) % 256 = 0
    · rw [if_pos hw]
      simp [MobilityCache.probe, CacheEntry.zeroed]
    · rw [if_neg hw]
      have hne : ¬(c.currentGeneration = (c.currentGeneration + 1) % 256) := by omega
      simp [MobilityCache.probe, Function.update_same, hne]

/-- Witness for C4: stored payload retrieved, differential precomputed,
empty-slot probe absent, and probe after one clear absent, all at concrete
inputs. -/
theorem c4_witness :
    CacheReachable MobilityCache.init ∧
      (MobilityCache.init.store 5 infoA).probe 5 = some infoA ∧
      infoA.differential = 21 - 13 ∧
      MobilityCache.init.probe 7 = none ∧
      ((MobilityCache.init.store 5 infoA).clear).probe 5 = none :=
  ⟨CacheReachable.init,
    c4_cache_transparency.1 MobilityCache.init 5 infoA,
    c4_cache_transparency.2.1 21 13,
    c4_cache_transparency.2.2.1 MobilityCache.init 7 CacheReachable.init rfl,
    c4_cache_transparency.2.2.2 MobilityCache.init 5 infoA CacheReachable.init⟩

/-- C8: in every reachable cache state, clear increments the generation
counter when it is below 255, physically zeroes the table and restarts the
counter at 1 exactly when the increment would wrap, and the counter is never
zero. -/
theorem c8_generation_wraparound :
    (∀ c : MobilityCache, CacheReachable c → c.currentGeneration < 255 →
      c.clear = { c with currentGeneration := c.currentGeneration + 1 }) ∧
    (∀ c : MobilityCache, CacheReachable c → c.currentGeneration = 255 →
      c.clear = { table := fun _ => CacheEntry.zeroed, currentGeneration := 1 }) ∧
    (∀ c : MobilityCache, CacheReachable c → c.currentGeneration ≠ 0) := by
  refine ⟨?_, ?_, ?_⟩
  · intro c hr hlt
    have hg := cacheReachable_generation hr
    unfold MobilityCache.clear
    have h1 : (c.currentGeneration + 1) % 256 = c.currentGeneration + 1 :=
      Nat.mod_eq_of_lt (by omega)
    rw [h1, if_neg (by omega)]
  · intro c hr h255
    unfold MobilityCache.clear
    rw [h255]
    norm_num
  · intro c hr
    have := cacheReachable_generation hr
    omega

/-- Witness for C8 at the freshly constructed cache: the generation is 1, a
clear advances it to 2, and it is nonzero. -/
theorem c8_witness :
    CacheReachable MobilityCache.init ∧ MobilityCache.init.currentGeneration < 255 ∧
      MobilityCache.init.clear =
        { MobilityCache.init with
            currentGeneration := MobilityCache.init.currentGeneration + 1 } ∧
      MobilityCache.init.currentGeneration ≠ 0 :=
  ⟨CacheReachable.init, by norm_num [MobilityCache.init],
    c8_generation_wraparound.1 _ CacheReachable.init (by norm_num [MobilityCache.init]),
    c8_generation_wraparound.2.2 _ CacheReachable.init⟩

/-- C9 counterexample: storing with hash 0 and probing hash 0 in the same
generation returns the stored payload, not absent, in a reachable state, so a
zero stored key is not treated as empty. -/
theorem c9_zero_key_counterexample :
    CacheReachable (MobilityCache.init.store 0 infoA) ∧
      (MobilityCache.init.store 0 infoA).probe 0 ≠ none :=
  ⟨CacheReachable.store 0 infoA CacheReachable.init, by decide⟩

/-- C9 amended: what is treated as empty is a slot whose generation tag is
still zero (never written since the last physical clear): probing any hash
mapping to such a slot returns absent in every reachable state, because the
current generation is never zero. -/
theorem c9_zero_key_amended (c : MobilityCache) (k : Nat) (hr : CacheReachable c)
    (hz : (c.table (slotOf k)).generation = 0) : c.probe k = none := by
  have hg := cacheReachable_generation hr
  unfold MobilityCache.probe
  rw [if_neg]
  rintro ⟨-, h2⟩
  omega

/-- Witness for the amended C9: probing hash 0 on the freshly constructed
cache returns absent. -/
theorem c9_witness :
    CacheReachable MobilityCache.init ∧
      (MobilityCache.init.table (slotOf 0)).generation = 0 ∧
      MobilityCache.init.probe 0 = none :=
  ⟨CacheReachable.init, rfl, c9_zero_key_amended MobilityCache.init 0 CacheReachable.init rfl⟩

/-- C10: along every sequence of clear and update calls from construction,
every entry of the history table stays within the
[-HistoryMax, HistoryMax] band. -/
theorem c10_history_bounded (h : MobilityHistory) (hr : HistoryReachable h) :
    ∀ (c : Color) (a b : Fin 64),
      -HistoryMax ≤ h.table c a b ∧ h.table c a b ≤ HistoryMax := by
  induction hr with
  | init =>
    intro c a b
    norm_num [MobilityHistory.init, HistoryMax]
  | clear _ ih =>
    intro c a b
    norm_num [MobilityHistory.clear, HistoryMax]
  | update c0 m bonus _ ih =>
    intro c a b
    unfold MobilityHistory.update
    dsimp only
    rcases eq_or_ne c c0 with hc | hc
    · subst hc
      rw [Function.update_same]
      rcases eq_or_ne a m.fromSq with ha | ha
      · subst ha
        rw [Function.update_same]
        rcases eq_or_ne b m.toSq with hb | hb
        · subst hb
          rw [Function.update_same]
          exact clampI_mem _ _ _ (by norm_num [HistoryMax])
        · rw [Function.update_noteq hb]
          exact ih _ _ _
      · rw [Function.update_noteq ha]
        exact ih _ _ _
    · rw [Function.update_noteq hc]
      exact ih _ _ _

/-- Witness for C10: the entry touched by a single huge-bonus update from the
cleared table stays inside the band. -/
theorem c10_witness :
    HistoryReachable (MobilityHistory.init.update Color.white ⟨0, 0⟩ 100000) ∧
      (-HistoryMax ≤
          (MobilityHistory.init.update Color.white ⟨0, 0⟩ 100000).table Color.white 0 0 ∧
        (MobilityHistory.init.update Color.white ⟨0, 0⟩ 100000).table Color.white 0 0 ≤
          HistoryMax) :=
  ⟨HistoryReachable.update Color.white ⟨0, 0⟩ 100000 HistoryReachable.init,
    c10_history_bounded _
      (HistoryReachable.update Color.white ⟨0, 0⟩ 100000 HistoryReachable.init)
      Color.white 0 0⟩

/-- C5 counterexample: in position posA the white pawn on b2 has its
single-push square b3 occupied and its double-push square b4 free;
fast_mobility counts that double push while the specification set of
double pushes with both squares empty is empty, so the claim fails on
fast_mobility at this input. -/
theorem c5_double_push_counterexample :
    popcount (fastDoubleBB posA Color.white) ≠
      popcount (specDoubleBB posA Color.white) := by
  decide

/-- C5 amended: the mobility routine of src/src/evaluate.cpp counts a double
push exactly when the pawn stands on its starting rank and both the
passed-over square and the destination are empty, while fast_mobility counts
a double push exactly when the destination two steps ahead of a starting-rank
pawn is empty, regardless of the passed-over square. -/
theorem c5_double_push_amended (p : Position) (c : Color) :
    popcount (doubleBB p c) = popcount (specDoubleBB p c) ∧
    popcount (fastDoubleBB p c) = popcount (specDoubleDestOnlyBB p c) := by
  constructor
  · apply popcount_congr
    intro s hs
    cases c
    · show (Board.inter
          (pushShift Color.white (Board.inter (singleBB p Color.white) (dblRank Color.white)))
          (Board.compl p.occupied)) s = specDoubleBB p Color.white s
      simp only [Board.inter, Board.compl, pushShift, dblRank, singleBB, shiftNorth,
        rank3BB, specDoubleBB, Nat.sub_sub]
      norm_num
      cases hp : p.byColorType Color.white PieceType.pawn (s - 16) <;>
        cases h1 : p.occupied (s - 8) <;>
          cases h2 : p.occupied s <;>
            simp [hp, h1, h2, ← Bool.decide_and, decide_eq_decide] <;> omega
    · show (Board.inter
          (pushShift Color.black (Board.inter (singleBB p Color.black) (dblRank Color.black)))
          (Board.compl p.occupied)) s = specDoubleBB p Color.black s
      simp only [Board.inter, Board.compl, pushShift, dblRank, singleBB, shiftSouth,
        rank6BB, specDoubleBB, Nat.add_assoc]
      norm_num
      cases hp : p.byColorType Color.black PieceType.pawn (s + 16) <;>
        cases h1 : p.occupied (s + 8) <;>
          cases h2 : p.occupied s <;>
            simp [hp, h1, h2, ← Bool.decide_and, decide_eq_decide] <;> omega
  · apply popcount_congr
    intro s hs
    cases c
    · show (Board.inter
          (Board.inter
            (shiftNorth (shiftNorth (Board.inter (p.byColorType Color.white PieceType.pawn) rank2BB)))
            (Board.compl p.occupied)) rank4BB) s = specDoubleDestOnlyBB p Color.white s
      simp only [Board.inter, Board.compl, shiftNorth, rank2BB, rank4BB,
        specDoubleDestOnlyBB, Nat.sub_sub]
      norm_num
      cases hp : p.byColorType Color.white PieceType.pawn (s - 16) <;>
        cases h2 : p.occupied s <;>
          simp [hp, h2, ← Bool.decide_and, decide_eq_decide] <;> omega
    · show (Board.inter
          (Board.inter
            (shiftSouth (shiftSouth (Board.inter (p.byColorType Color.black PieceType.pawn) rank7BB)))
            (Board.compl p.occupied)) rank5BB) s = specDoubleDestOnlyBB p Color.black s
      simp only [Board.inter, Board.compl, shiftSouth, rank7BB, rank5BB,
        specDoubleDestOnlyBB, Nat.add_assoc]
      norm_num
      cases hp : p.byColorType Color.black PieceType.pawn (s + 16) <;>
        cases h2 : p.occupied s <;>
          simp [hp, h2, ← Bool.decide_and, decide_eq_decide] <;> omega

/-- Witness for the amended C5 at the concrete position posA. -/
theorem c5_witness :
    popcount (doubleBB posA Color.white) = popcount (specDoubleBB posA Color.white) ∧
    popcount (fastDoubleBB posA Color.white) =
      popcount (specDoubleDestOnlyBB posA Color.white) :=
  c5_double_push_amended posA Color.white

/-- C6 counterexample: in position posA the white pawn on b2 diagonally
attacks the empty squares a3 and c3; the mobility routine of
src/src/evaluate.cpp counts both, while the count restricted to squares
occupied by the opponent is zero, so the claim fails on that routine at this
input. -/
theorem c6_pawn_capture_counterexample :
    popcount (mobilityPawnAttBB posA Color.white) ≠
      popcount (fastPawnCaptureBB posA Color.white) := by
  decide

/-- C6 amended: on positions whose two color occupancy sets are disjoint,
fast_mobility counts pawn diagonal reach only toward squares occupied by the
opponent, and the pawn-attack term of the mobility routine of
src/src/evaluate.cpp equals that capture count plus the number of diagonally
attacked empty squares, which it also counts. -/
theorem c6_pawn_capture_amended (p : Position) (c : Color)
    (hd : ∀ s, s < 64 →
      ¬(p.colorPieces Color.white s = true ∧ p.colorPieces Color.black s = true)) :
    popcount (mobilityPawnAttBB p c) =
      popcount (fastPawnCaptureBB p c) +
        popcount (Board.inter (pawnAttacksBB c (p.byColorType c PieceType.pawn))
          (Board.compl p.occupied)) := by
  cases c
  · exact popcount_split (pawnAttacksBB Color.white (p.byColorType Color.white PieceType.pawn))
      (p.colorPieces Color.white) (p.colorPieces Color.black) hd
  · have h1 := popcount_split
      (pawnAttacksBB Color.black (p.byColorType Color.black PieceType.pawn))
      (p.colorPieces Color.black) (p.colorPieces Color.white)
      (fun s hs hc => hd s hs ⟨hc.2, hc.1⟩)
    have h2 : popcount (Board.inter (pawnAttacksBB Color.black (p.byColorType Color.black PieceType.pawn))
        (Board.compl (Board.union (p.colorPieces Color.black) (p.colorPieces Color.white)))) =
        popcount (Board.inter (pawnAttacksBB Color.black (p.byColorType Color.black PieceType.pawn))
          (Board.compl p.occupied)) := by
      apply popcount_congr
      intro s hs
      simp [Board.inter, Board.compl, Board.union, Position.occupied, Bool.or_comm]
    have h0 : popcount (mobilityPawnAttBB p Color.black) =
        popcount (Board.inter (pawnAttacksBB Color.black (p.byColorType Color.black PieceType.pawn))
          (Board.compl (p.colorPieces Color.black))) := rfl
    rw [h0, h1, h2]
    rfl

/-- Witness for the amended C6 at the concrete position posA: the white pawn
attack term of the mobility routine (2, the empty squares a3 and c3) equals
the capture term of fast_mobility (0) plus the attacked empty squares (2). -/
theorem c6_witness :
    (∀ s, s < 64 →
      ¬(posA.colorPieces Color.white s = true ∧ posA.colorPieces Color.black s = true)) ∧
      popcount (mobilityPawnAttBB posA Color.white) =
        popcount (fastPawnCaptureBB posA Color.white) +
          popcount (Board.inter (pawnAttacksBB Color.white (posA.byColorType Color.white PieceType.pawn))
            (Board.compl posA.occupied)) :=
  ⟨by decide, c6_pawn_capture_amended posA Color.white (by decide)⟩

/-- C7 counterexample: in position posA the two mobility routines disagree
for white (7 against 6): the mobility routine counts the two diagonally
attacked empty squares and rejects the blocked double push, fast_mobility
does the opposite. -/
theorem c7_agreement_counterexample :
    mobility posA Color.white ≠ fast_mobility posA Color.white := by
  decide

/-- C7 amended: the knight, bishop, rook, queen and king contributions of the
two routines are identical, so on every position in which the given side has
no pawns the two mobility counts agree. -/
theorem c7_agreement_amended (p : Position) (c : Color)
    (h : p.byColorType c PieceType.pawn = emptyBB) :
    mobility p c = fast_mobility p c := by
  have hsingle : ∀ s, singleBB p c s = false := by
    intro s
    cases c <;>
      simp [singleBB, pushShift, h, shiftNorth, shiftSouth, emptyBB, Board.inter]
  have hdouble : ∀ s, doubleBB p c s = false := by
    intro s
    cases c
    · simp [doubleBB, pushShift, dblRank, Board.inter, Board.compl, shiftNorth, hsingle]
    · simp [doubleBB, pushShift, dblRank, Board.inter, Board.compl, shiftSouth, hsingle]
  have hatt : ∀ s, mobilityPawnAttBB p c s = false := by
    intro s
    cases c <;>
      simp [mobilityPawnAttBB, pawnAttacksBB, h, shiftNorthEast, shiftNorthWest,
        shiftSouthEast, shiftSouthWest, emptyBB, Board.inter, Board.union]
  have hm : mobilityPawnTerm p c = 0 := by
    unfold mobilityPawnTerm
    rw [popcount_zero (fun s _ => hsingle s), popcount_zero (fun s _ => hdouble s),
      popcount_zero (fun s _ => hatt s)]
  have hf : fastPawnTerm p c = 0 := by
    cases c
    · have e1 : ∀ s, (Board.inter (shiftNorth (p.byColorType Color.white PieceType.pawn))
          (Board.compl p.occupied)) s = false := by
        intro s
        simp [h, shiftNorth, emptyBB, Board.inter]
      have e2 : ∀ s, fastDoubleBB p Color.white s = false := by
        intro s
        simp [fastDoubleBB, h, shiftNorth, emptyBB, Board.inter]
      have e3 : ∀ s, fastPawnCaptureBB p Color.white s = false := by
        intro s
        simp [fastPawnCaptureBB, h, shiftNorthEast, shiftNorthWest, emptyBB,
          Board.inter, Board.union]
      show popcount (Board.inter (shiftNorth (p.byColorType Color.white PieceType.pawn))
          (Board.compl p.occupied)) +
        popcount (fastDoubleBB p Color.white) + popcount (fastPawnCaptureBB p Color.white) = 0
      rw [popcount_zero (fun s _ => e1 s), popcount_zero (fun s _ => e2 s),
        popcount_zero (fun s _ => e3 s)]
    · have e1 : ∀ s, (Board.inter (shiftSouth (p.byColorType Color.black PieceType.pawn))
          (Board.compl p.occupied)) s = false := by
        intro s
        simp [h, shiftSouth, emptyBB, Board.inter]
      have e2 : ∀ s, fastDoubleBB p Color.black s = false := by
        intro s
        simp [fastDoubleBB, h, shiftSouth, emptyBB, Board.inter]
      have e3 : ∀ s, fastPawnCaptureBB p Color.black s = false := by
        intro s
        simp [fastPawnCaptureBB, h, shiftSouthEast, shiftSouthWest, emptyBB,
          Board.inter, Board.union]
      show popcount (Board.inter (shiftSouth (p.byColorType Color.black PieceType.pawn))
          (Board.compl p.occupied)) +
        popcount (fastDoubleBB p Color.black) + popcount (fastPawnCaptureBB p Color.black) = 0
      rw [popcount_zero (fun s _ => e1 s), popcount_zero (fun s _ => e2 s),
        popcount_zero (fun s _ => e3 s)]
  unfold mobility fast_mobility
  rw [hm, hf]

/-- Witness for the amended C7 at the pawnless position posK: both routines
count 5 king moves for white. -/
theorem c7_witness :
    posK.byColorType Color.white PieceType.pawn = emptyBB ∧
      mobility posK Color.white = fast_mobility posK Color.white :=
  ⟨rfl, c7_agreement_amended posK Color.white rfl⟩

end Spacefish
